import Mathlib

/-!
Shallow embedding of the attendance core of the bright-smile-attend
repository, centred on `src/pages/LiveAttendance.tsx`, together with a
spec-modelled matcher and session-aggregator finalization rule for the parts
of the pipeline whose code (the standalone facial-recognition tool) is not
present in the repository snapshot.
-/

/-- The status union type of `AttendanceEntry.status` in LiveAttendance.tsx:
`"present" | "sleepy" | "absent"`. -/
inductive Status where
  | present
  | sleepy
  | absent
deriving DecidableEq, Repr

/-- The `Student` interface of LiveAttendance.tsx (rows of the `students`
table fetched in `fetchStudents`). -/
structure Student where
  id : String
  full_name : String
  roll_number : String
  photo_url : Option String
deriving DecidableEq, Repr

/-- The `AttendanceEntry` interface of LiveAttendance.tsx. -/
structure AttendanceEntry where
  studentId : String
  studentName : String
  rollNumber : String
  status : Status
deriving DecidableEq, Repr

/-- The initialization performed inside `fetchStudents` (LiveAttendance.tsx
lines 56-63): `data.map (s => ({studentId: s.id, studentName: s.full_name,
rollNumber: s.roll_number, status: "absent"}))` — every fetched student gets
exactly one entry, defaulted to `absent`. -/
def initAttendance (students : List Student) : List AttendanceEntry :=
  students.map fun s =>
    { studentId := s.id
      studentName := s.full_name
      rollNumber := s.roll_number
      status := Status.absent }

/-- `updateStatus` of LiveAttendance.tsx (lines 94-98):
`prev.map (a => a.studentId === studentId ? { ...a, status } : a)`. -/
def updateStatus (studentId : String) (status : Status)
    (prev : List AttendanceEntry) : List AttendanceEntry :=
  prev.map fun a => if a.studentId = studentId then { a with status := status } else a

/-- `markAllPresent` of LiveAttendance.tsx (lines 100-102):
`prev.map (a => ({ ...a, status: "present" }))`. -/
def markAllPresent (prev : List AttendanceEntry) : List AttendanceEntry :=
  prev.map fun a => { a with status := Status.present }

/-- The state-mutating events that can reach the attendance list during an
open session. `update` and `markAll` are the two manual handlers of
LiveAttendance.tsx; `autoSample` stands for an automatic-path detection event:
in LiveAttendance.tsx the face-api pipeline is loaded but never wired to the
`attendance` state, so an automatic sample mutates nothing. -/
inductive Op where
  | update (studentId : String) (status : Status)
  | markAll
  | autoSample (identityId : String) (drowsy : Bool)
deriving DecidableEq, Repr

/-- Effect of one event on the attendance list, as implemented in
LiveAttendance.tsx (`autoSample` is a no-op on the roll: no code path feeds
detections into `setAttendance`). -/
def applyOp (st : List AttendanceEntry) : Op → List AttendanceEntry
  | Op.update sid s => updateStatus sid s st
  | Op.markAll => markAllPresent st
  | Op.autoSample _ _ => st

/-- Fold a session's event sequence over the attendance state. -/
def applyOps (ops : List Op) (st : List AttendanceEntry) : List AttendanceEntry :=
  ops.foldl applyOp st

/-- Whether an event sets the status of student `sid`: a per-student update
targeting `sid`, or the bulk mark-all-present. Automatic samples never set a
status in LiveAttendance.tsx. -/
def isSetterFor (sid : String) : Op → Bool
  | Op.update sid' _ => sid' == sid
  | Op.markAll => true
  | Op.autoSample _ _ => false

/-- The subsequence of events that set the status of student `sid`. -/
def statusSetters (sid : String) (ops : List Op) : List Op :=
  ops.filter (isSetterFor sid)

lemma map_studentId_applyOp (st : List AttendanceEntry) (o : Op) :
    (applyOp st o).map AttendanceEntry.studentId = st.map AttendanceEntry.studentId := by
  cases o with
  | update sid s =>
      simp only [applyOp, updateStatus, List.map_map]
      apply List.map_congr_left
      intro a _
      by_cases h : a.studentId = sid <;> simp [h]
  | markAll =>
      simp only [applyOp, markAllPresent, List.map_map]
      rfl
  | autoSample i d => rfl

lemma map_studentId_applyOps (ops : List Op) (st : List AttendanceEntry) :
    (applyOps ops st).map AttendanceEntry.studentId = st.map AttendanceEntry.studentId := by
  induction ops generalizing st with
  | nil => rfl
  | cons o rest ih =>
      simp only [applyOps, List.foldl_cons] at *
      rw [ih, map_studentId_applyOp]

lemma map_studentId_initAttendance (students : List Student) :
    (initAttendance students).map AttendanceEntry.studentId = students.map Student.id := by
  simp [initAttendance, List.map_map]

/-- Rendering of a `Status` to the string literals used throughout
LiveAttendance.tsx. -/
def statusText : Status → String
  | Status.present => "present"
  | Status.sleepy => "sleepy"
  | Status.absent => "absent"

/-- `maxPeriods` of LiveAttendance.tsx (line 137):
`period8Free ? 7 : 8`. -/
def maxPeriods (period8Free : Bool) : Nat :=
  if period8Free then 7 else 8

/-- The period values offered by the period `Select` (LiveAttendance.tsx
line 174): `Array.from({length: maxPeriods}, (_, i) => i + 1)`. -/
def periodOptions (period8Free : Bool) : List Nat :=
  (List.range (maxPeriods period8Free)).map (· + 1)

/-- One row of the `records` array built in `saveAttendance`
(LiveAttendance.tsx lines 116-122): `{student_id, date, period, status,
verified_by}`. -/
structure AttendanceRecordRow where
  student_id : String
  date : String
  period : Nat
  status : Status
  verified_by : String
deriving DecidableEq, Repr

/-- The fields of one record row in the stable order the code writes them
(LiveAttendance.tsx lines 116-122), as (field name, rendered value) pairs. -/
def rowFields (r : AttendanceRecordRow) : List (String × String) :=
  [("student_id", r.student_id),
   ("date", r.date),
   ("period", toString r.period),
   ("status", statusText r.status),
   ("verified_by", r.verified_by)]

/-- The `records` computation of `saveAttendance` (LiveAttendance.tsx lines
116-122): `attendance.map (a => ({student_id: a.studentId, date: today,
period, status: a.status, verified_by: user.id}))`. -/
def buildRecords (today : String) (period : Nat) (userId : String)
    (attendance : List AttendanceEntry) : List AttendanceRecordRow :=
  attendance.map fun a =>
    { student_id := a.studentId
      date := today
      period := period
      status := a.status
      verified_by := userId }

/-- Result of a sink insert: success, or an error with a message (mirrors the
`{ error }` destructuring of the supabase insert call). -/
inductive SinkResult where
  | success
  | error (msg : String)
deriving DecidableEq, Repr

/-- Whether any incoming record collides with a stored record on the
(student_id, date, period) key — the unique constraint the attendance sink
enforces on `attendance_records`. -/
def hasConflict (db records : List AttendanceRecordRow) : Bool :=
  records.any fun r =>
    db.any fun d0 =>
      d0.student_id == r.student_id && d0.date == r.date && d0.period == r.period

/-- The attendance sink's batch insert: rejects the whole batch and leaves
the stored records untouched when any row collides on (student_id, date,
period); otherwise appends the batch. -/
def sinkInsert (db records : List AttendanceRecordRow) :
    List AttendanceRecordRow × SinkResult :=
  if hasConflict db records then
    (db, SinkResult.error "duplicate key value violates unique constraint")
  else
    (db ++ records, SinkResult.success)

/-- Whether `needle` is an initial segment of `hay` (on character lists). -/
def startsWithChars : List Char → List Char → Bool
  | [], _ => true
  | _ :: _, [] => false
  | n :: ns, h :: hs => n == h && startsWithChars ns hs

/-- Whether `needle` occurs contiguously anywhere in `hay`. -/
def occursIn (needle : List Char) : List Char → Bool
  | [] => startsWithChars needle []
  | c :: hs => startsWithChars needle (c :: hs) || occursIn needle hs

/-- The substring test backing `error.message.includes("duplicate")`
(LiveAttendance.tsx line 126). -/
def containsSubstr (needle hay : String) : Bool :=
  occursIn needle.toList hay.toList

/-- The toast notifications emitted by LiveAttendance.tsx. -/
inductive Toast where
  | info (msg : String)
  | error (msg : String)
  | success (msg : String)
deriving DecidableEq, Repr

/-- The component state of `LiveAttendance` that `saveAttendance` reads or
writes: the selected period (already parsed to a number), the period-8-free
switch, the attendance list, the transient `saving` flag, the
`faceApiLoaded` flag, and the authenticated user id (`none` when `!user`). -/
structure PageState where
  selectedPeriod : Nat
  period8Free : Bool
  attendance : List AttendanceEntry
  saving : Bool
  faceApiLoaded : Bool
  userId : Option String
deriving DecidableEq, Repr

/-- Outcome of one `saveAttendance` call: the component state afterwards, the
sink's stored records afterwards, the list of insert calls issued (each one
batch), and the toasts shown. -/
structure SaveResult where
  state : PageState
  db : List AttendanceRecordRow
  insertCalls : List (List AttendanceRecordRow)
  toasts : List Toast
deriving DecidableEq, Repr

/-- `saveAttendance` of LiveAttendance.tsx (lines 104-135): bail out when no
user; set `saving`; when period 8 is selected and marked free, toast and stop
without touching the sink; otherwise build the records from the attendance
list and insert them in one batch, toasting a duplicate-specific error, the
raw error, or success; finally clear `saving`. -/
def saveAttendance (st : PageState) (db : List AttendanceRecordRow)
    (today : String) : SaveResult :=
  match st.userId with
  | none => ⟨st, db, [], []⟩
  | some uid =>
    let st1 : PageState := { st with saving := true }
    let period := st1.selectedPeriod
    if period == 8 && st1.period8Free then
      ⟨{ st1 with saving := false }, db, [],
        [Toast.info "Period 8 is marked as free. No attendance recorded."]⟩
    else
      let records := buildRecords today period uid st1.attendance
      match sinkInsert db records with
      | (db2, SinkResult.success) =>
          ⟨{ st1 with saving := false }, db2, [records],
            [Toast.success ("Attendance saved for Period " ++ toString period ++ "!")]⟩
      | (db2, SinkResult.error msg) =>
          if containsSubstr "duplicate" msg then
            ⟨{ st1 with saving := false }, db2, [records],
              [Toast.error "Attendance already recorded for this period today"]⟩
          else
            ⟨{ st1 with saving := false }, db2, [records], [Toast.error msg]⟩

/-- Outcome of the `loadModels` effect of LiveAttendance.tsx (lines 70-92):
when the models are available `faceApiLoaded` is set; on failure a single
console message is logged and the flag stays false. -/
structure ModelLoadOutcome where
  faceApiLoaded : Bool
  logs : List String
deriving DecidableEq, Repr

/-- `loadModels` of LiveAttendance.tsx (lines 71-90). -/
def loadModels (modelsAvailable : Bool) : ModelLoadOutcome :=
  if modelsAvailable then
    ⟨true, []⟩
  else
    ⟨false, ["Face-api models not available, using manual mode"]⟩

/-- Model-availability reports over a whole session of `numFrames` frames:
the `loadModels` effect runs once at mount (empty dependency array, line 92)
and no per-frame code path re-reports availability, so the reports are those
of the single startup load regardless of the frame count. -/
def sessionModelReports (modelsAvailable : Bool) (_numFrames : Nat) : List String :=
  (loadModels modelsAvailable).logs

/-- Modelled from the spec: the per-Identity running tally of the Session
Aggregator (`{count_seen, count_drowsy}`, spec §3 SessionState); the
aggregation code lives in the standalone facial-recognition tool
(`tools/facial_attendance/facerecognition.py`), which is absent from the
repository snapshot — only its README remains. -/
structure Tally where
  count_seen : Nat
  count_drowsy : Nat
deriving DecidableEq, Repr

/-- Modelled from the spec (§4.5, period-close rule), code absent from the
snapshot: if `count_seen == 0` the final status is `absent`; else if
`count_drowsy / count_seen` exceeds the configured drowsiness-majority
fraction `num/den` (default 1/2) the final status is `sleepy`; else
`present`. The fraction comparison `num/den < count_drowsy/count_seen` is
carried out by cross-multiplication in exact arithmetic
(`finalizeTally_rule` below proves the two formulations agree). -/
def finalizeTally (num den : Nat) (t : Tally) : Status :=
  if t.count_seen = 0 then Status.absent
  else if num * t.count_seen < t.count_drowsy * den then Status.sleepy
  else Status.present

/-- Modelled from the spec: one Gallery Store identity with its reference
embeddings (spec §3 Identity, §6 gallery provider); the matcher code lives in
the absent facial-recognition tool. -/
structure GalleryEntry where
  identityId : String
  embeddings : List (List ℤ)
deriving DecidableEq, Repr

/-- Squared Euclidean distance between two descriptors (the spec §4.4 fixes
one distance, Euclidean; squaring is order-preserving, so the match threshold
and tie epsilon below live on the squared-distance scale; coordinates are
kept in exact integer arithmetic, a fixed-point rendering of the tool's
float vectors). -/
def dist2 (u v : List ℤ) : ℤ :=
  (List.zipWith (fun a b => (a - b) * (a - b)) u v).sum

/-- Modelled from the spec (§4.4): the distance from a descriptor to an
identity is the minimum distance over its reference embeddings; `⊤` when the
identity has no embeddings. -/
def identityDist (d : List ℤ) (g : GalleryEntry) : WithTop ℤ :=
  (g.embeddings.map fun e => ((dist2 d e : ℤ) : WithTop ℤ)).foldr min ⊤

/-- Identities paired with their distances to the descriptor. -/
def scoredOf (d : List ℤ) (gallery : List GalleryEntry) :
    List (String × WithTop ℤ) :=
  gallery.map fun g => (g.identityId, identityDist d g)

/-- Globally minimum distance over the scored gallery (`⊤` when empty). -/
def galleryMinDist (scored : List (String × WithTop ℤ)) : WithTop ℤ :=
  (scored.map Prod.snd).foldr min ⊤

/-- Modelled from the spec (§4.4 Matcher): select the identity of globally
minimum distance; if that minimum exceeds the match threshold, return
`none` (unknown); if several identities lie within `eps` of the minimum
distance (a tie), return `none` rather than an arbitrary pick. -/
def matchScored (threshold eps : ℤ) (scored : List (String × WithTop ℤ)) :
    Option String :=
  let dmin := galleryMinDist scored
  if dmin ≤ (threshold : WithTop ℤ) then
    match scored.filter (fun q => decide (q.2 ≤ dmin + (eps : WithTop ℤ))) with
    | [q] => some q.1
    | _ => none
  else none

/-- Modelled from the spec (§4.4): the Matcher, from a descriptor and the
gallery. -/
def matchDescriptor (threshold eps : ℤ) (gallery : List GalleryEntry)
    (d : List ℤ) : Option String :=
  matchScored threshold eps (scoredOf d gallery)


/-! ## Supporting lemmas -/

lemma updateStatus_sets (sid : String) (s : Status) (st : List AttendanceEntry) :
    ∀ e ∈ updateStatus sid s st, e.studentId = sid → e.status = s := by
  intro e he hid
  simp only [updateStatus, List.mem_map] at he
  obtain ⟨a, _, rfl⟩ := he
  by_cases h : a.studentId = sid
  · simp [h]
  · simp only [if_neg h]
    simp only [if_neg h] at hid
    exact absurd hid h

lemma applyOp_non_setter (sid : String) (c : Status) (o : Op)
    (ho : isSetterFor sid o = false) (st : List AttendanceEntry)
    (h : ∀ e ∈ st, e.studentId = sid → e.status = c) :
    ∀ e ∈ applyOp st o, e.studentId = sid → e.status = c := by
  cases o with
  | update sid' s =>
      intro e he hid
      simp only [isSetterFor, beq_eq_false_iff_ne, ne_eq] at ho
      simp only [applyOp, updateStatus, List.mem_map] at he
      obtain ⟨a, ha, rfl⟩ := he
      by_cases hcase : a.studentId = sid'
      · simp only [if_pos hcase] at hid ⊢
        exact absurd (hcase ▸ hid) ho
      · simp only [if_neg hcase] at hid ⊢
        exact h a ha hid
  | markAll => simp [isSetterFor] at ho
  | autoSample i dr => exact h

lemma applyOps_no_setter (sid : String) (c : Status) (ops : List Op)
    (st : List AttendanceEntry) (hops : statusSetters sid ops = [])
    (h : ∀ e ∈ st, e.studentId = sid → e.status = c) :
    ∀ e ∈ applyOps ops st, e.studentId = sid → e.status = c := by
  induction ops generalizing st with
  | nil => exact h
  | cons o rest ih =>
      simp only [statusSetters, List.filter_cons] at hops
      by_cases ho : isSetterFor sid o = true
      · simp [ho] at hops
      · simp only [Bool.not_eq_true] at ho
        simp only [ho, Bool.false_eq_true, if_false] at hops
        exact ih (applyOp st o) hops (applyOp_non_setter sid c o ho st h)

lemma applyOps_single_setter (sid : String) (st0 : Status) (ops : List Op)
    (st : List AttendanceEntry)
    (hops : statusSetters sid ops = [Op.update sid st0]) :
    ∀ e ∈ applyOps ops st, e.studentId = sid → e.status = st0 := by
  induction ops generalizing st with
  | nil => simp [statusSetters] at hops
  | cons o rest ih =>
      simp only [statusSetters, List.filter_cons] at hops
      by_cases ho : isSetterFor sid o = true
      · simp only [ho, if_true, List.cons.injEq] at hops
        obtain ⟨rfl, hrest⟩ := hops
        have hafter : ∀ e ∈ applyOp st (Op.update sid st0),
            e.studentId = sid → e.status = st0 :=
          updateStatus_sets sid st0 st
        exact applyOps_no_setter sid st0 rest _ hrest hafter
      · simp only [Bool.not_eq_true] at ho
        simp only [ho, Bool.false_eq_true, if_false] at hops
        exact ih (applyOp st o) hops

lemma initAttendance_all_absent (students : List Student) :
    ∀ e ∈ initAttendance students, e.status = Status.absent := by
  intro e he
  simp only [initAttendance, List.mem_map] at he
  obtain ⟨s, _, rfl⟩ := he
  rfl

lemma map_student_id_buildRecords (today : String) (p : Nat) (uid : String)
    (att : List AttendanceEntry) :
    (buildRecords today p uid att).map AttendanceRecordRow.student_id
      = att.map AttendanceEntry.studentId := by
  simp [buildRecords, List.map_map]

lemma mem_buildRecords (today : String) (p : Nat) (uid : String)
    (att : List AttendanceEntry) {r : AttendanceRecordRow}
    (hr : r ∈ buildRecords today p uid att) :
    ∃ a ∈ att, r = { student_id := a.studentId, date := today, period := p,
                     status := a.status, verified_by := uid } := by
  simp only [buildRecords, List.mem_map] at hr
  obtain ⟨a, ha, rfl⟩ := hr
  exact ⟨a, ha, rfl⟩

/-! ## Claims -/

/-- C1: for every session, the roll handed to the attendance sink contains
exactly one record per student known at session start, and the set of
student ids on the roll is preserved by every state-mutating operation
(initialization, per-student update, mark-all-present, automatic samples in
degraded manual mode): no student is ever dropped. -/
theorem C1_roll_completeness (students : List Student) (ops : List Op)
    (today : String) (p : Nat) (uid : String)
    (hnodup : (students.map Student.id).Nodup) :
    ((applyOps ops (initAttendance students)).map AttendanceEntry.studentId
        = students.map Student.id)
    ∧ ∀ s ∈ students,
        ((buildRecords today p uid (applyOps ops (initAttendance students))).map
            AttendanceRecordRow.student_id).count s.id = 1 := by
  have hmap : (applyOps ops (initAttendance students)).map AttendanceEntry.studentId
      = students.map Student.id := by
    rw [map_studentId_applyOps, map_studentId_initAttendance]
  refine ⟨hmap, ?_⟩
  intro s hs
  rw [map_student_id_buildRecords, hmap]
  exact List.count_eq_one_of_mem hnodup (List.mem_map_of_mem _ hs)

/-- Witness for C1 at a concrete two-student session with one manual update
and one automatic sample. -/
theorem C1_roll_completeness_witness :
    (([⟨"A", "Alice", "1", none⟩, ⟨"B", "Bob", "2", none⟩] : List Student).map
        Student.id).Nodup
    ∧ ((buildRecords "2024-05-01" 1 "u"
          (applyOps [Op.update "A" Status.present, Op.autoSample "B" false]
            (initAttendance
              [⟨"A", "Alice", "1", none⟩, ⟨"B", "Bob", "2", none⟩]))).map
          AttendanceRecordRow.student_id).count "A" = 1 :=
  ⟨by decide,
   (C1_roll_completeness [⟨"A", "Alice", "1", none⟩, ⟨"B", "Bob", "2", none⟩]
      [Op.update "A" Status.present, Op.autoSample "B" false]
      "2024-05-01" 1 "u" (by decide)).2 ⟨"A", "Alice", "1", none⟩ (by decide)⟩

/-- C2: every student is initialized `absent`, and a student with no
status-setting event during the session (no manual update targeting them, no
mark-all-present; automatic samples never set a status) finalizes with
status `absent` in the committed roll. -/
theorem C2_unseen_finalizes_absent (students : List Student) (ops : List Op)
    (today : String) (p : Nat) (uid : String) (s : Student)
    (hs : s ∈ students) (hnos : statusSetters s.id ops = []) :
    (∀ r ∈ buildRecords today p uid (applyOps ops (initAttendance students)),
        r.student_id = s.id → r.status = Status.absent)
    ∧ ∃ r ∈ buildRecords today p uid (applyOps ops (initAttendance students)),
        r.student_id = s.id := by
  have hinv := applyOps_no_setter s.id Status.absent ops (initAttendance students) hnos
    (fun e he _ => initAttendance_all_absent students e he)
  constructor
  · intro r hr hid
    obtain ⟨a, ha, rfl⟩ := mem_buildRecords today p uid _ hr
    exact hinv a ha hid
  · have hmem : s.id ∈ (applyOps ops (initAttendance students)).map
        AttendanceEntry.studentId := by
      rw [map_studentId_applyOps, map_studentId_initAttendance]
      exact List.mem_map_of_mem _ hs
    obtain ⟨a, ha, haid⟩ := List.mem_map.1 hmem
    exact ⟨_, List.mem_map_of_mem _ ha, haid⟩

/-- Witness for C2: student A receives no status-setting event while B is
updated; A's committed record is `absent`. -/
theorem C2_unseen_finalizes_absent_witness :
    (⟨"A", "2024-05-01", 1, Status.absent, "u"⟩ : AttendanceRecordRow)
        ∈ buildRecords "2024-05-01" 1 "u"
            (applyOps [Op.update "B" Status.present, Op.autoSample "A" true]
              (initAttendance [⟨"A", "Alice", "1", none⟩, ⟨"B", "Bob", "2", none⟩]))
    ∧ (⟨"A", "2024-05-01", 1, Status.absent, "u"⟩ : AttendanceRecordRow).status
        = Status.absent :=
  ⟨by decide,
   (C2_unseen_finalizes_absent [⟨"A", "Alice", "1", none⟩, ⟨"B", "Bob", "2", none⟩]
      [Op.update "B" Status.present, Op.autoSample "A" true]
      "2024-05-01" 1 "u" ⟨"A", "Alice", "1", none⟩ (by decide) (by decide)).1
     ⟨"A", "2024-05-01", 1, Status.absent, "u"⟩ (by decide) rfl⟩

/-- C6: a manual override set at any time before finalization determines the
student's committed status, regardless of how automatic samples (and updates
for other students) are interleaved around it: if the only status-setting
event for the student is the single override, the committed record carries
the overridden status. -/
theorem C6_manual_override_wins (students : List Student) (ops : List Op)
    (today : String) (p : Nat) (uid : String) (s : Student) (st0 : Status)
    (hset : statusSetters s.id ops = [Op.update s.id st0]) :
    ∀ r ∈ buildRecords today p uid (applyOps ops (initAttendance students)),
      r.student_id = s.id → r.status = st0 := by
  intro r hr hid
  obtain ⟨a, ha, rfl⟩ := mem_buildRecords today p uid _ hr
  exact applyOps_single_setter s.id st0 ops _ hset a ha hid

/-- Witness for C6: the override to `sleepy` for A arrives between automatic
samples for A; A's committed record is `sleepy`. -/
theorem C6_manual_override_wins_witness :
    (⟨"A", "2024-05-01", 1, Status.sleepy, "u"⟩ : AttendanceRecordRow)
        ∈ buildRecords "2024-05-01" 1 "u"
            (applyOps
              [Op.autoSample "A" false, Op.update "A" Status.sleepy,
               Op.autoSample "A" true, Op.update "B" Status.present]
              (initAttendance [⟨"A", "Alice", "1", none⟩, ⟨"B", "Bob", "2", none⟩]))
    ∧ (⟨"A", "2024-05-01", 1, Status.sleepy, "u"⟩ : AttendanceRecordRow).status
        = Status.sleepy :=
  ⟨by decide,
   C6_manual_override_wins [⟨"A", "Alice", "1", none⟩, ⟨"B", "Bob", "2", none⟩]
      [Op.autoSample "A" false, Op.update "A" Status.sleepy,
       Op.autoSample "A" true, Op.update "B" Status.present]
      "2024-05-01" 1 "u" ⟨"A", "Alice", "1", none⟩ Status.sleepy (by decide)
      ⟨"A", "2024-05-01", 1, Status.sleepy, "u"⟩ (by decide) rfl⟩

/-- C3: at period close, for every identity with `count_seen > 0`, the final
status is `sleepy` exactly when `count_drowsy / count_seen` exceeds the
configured drowsiness-majority fraction `num/den` (default 1/2), and
`present` otherwise; in particular 6 drowsy samples out of 10 seen finalize
as `sleepy` at the default fraction. (Spec-modelled: the aggregation code of
the facial-recognition tool is absent from the snapshot.) -/
theorem C3_drowsiness_majority_rule (t : Tally) (num den : Nat)
    (hseen : 0 < t.count_seen) (hden : 0 < den) :
    (finalizeTally num den t = Status.sleepy
        ↔ (num : ℚ) / (den : ℚ) < (t.count_drowsy : ℚ) / (t.count_seen : ℚ))
    ∧ (finalizeTally num den t = Status.present
        ↔ (t.count_drowsy : ℚ) / (t.count_seen : ℚ) ≤ (num : ℚ) / (den : ℚ))
    ∧ finalizeTally 1 2 ⟨10, 6⟩ = Status.sleepy := by
  have hns : t.count_seen ≠ 0 := hseen.ne'
  have key : num * t.count_seen < t.count_drowsy * den
      ↔ (num : ℚ) / (den : ℚ) < (t.count_drowsy : ℚ) / (t.count_seen : ℚ) := by
    rw [div_lt_div_iff₀ (Nat.cast_pos.mpr hden) (Nat.cast_pos.mpr hseen)]
    exact_mod_cast Iff.rfl
  have hfin : finalizeTally num den t =
      if num * t.count_seen < t.count_drowsy * den then Status.sleepy
      else Status.present := by
    simp [finalizeTally, hns]
  by_cases hlt : num * t.count_seen < t.count_drowsy * den
  · have hQ := key.mp hlt
    refine ⟨?_, ?_, by decide⟩
    · rw [hfin, if_pos hlt]
      exact ⟨fun _ => hQ, fun _ => rfl⟩
    · rw [hfin, if_pos hlt]
      exact ⟨fun h => absurd h (by decide), fun h => absurd hQ (not_lt.mpr h)⟩
  · have hQ : ¬((num : ℚ) / (den : ℚ) < (t.count_drowsy : ℚ) / (t.count_seen : ℚ)) :=
      fun h => hlt (key.mpr h)
    refine ⟨?_, ?_, by decide⟩
    · rw [hfin, if_neg hlt]
      exact ⟨fun h => absurd h (by decide), fun h => absurd h hQ⟩
    · rw [hfin, if_neg hlt]
      exact ⟨fun _ => not_lt.mp hQ, fun _ => rfl⟩

/-- Witness for C3 at the end-to-end scenario of the claim: 10 frames seen,
6 drowsy, default fraction 1/2. -/
theorem C3_drowsiness_majority_rule_witness :
    0 < (⟨10, 6⟩ : Tally).count_seen ∧ 0 < 2
    ∧ finalizeTally 1 2 ⟨10, 6⟩ = Status.sleepy :=
  ⟨by decide, by decide,
   (C3_drowsiness_majority_rule ⟨10, 6⟩ 1 2 (by decide) (by decide)).2.2⟩

/-- C5: when a commit is rejected by the sink as a duplicate for the
(date, period) session, the failure is reported via the duplicate toast,
exactly one insert is attempted (no retry), the stored records are not
overwritten, and the in-memory attendance entries are unchanged. -/
theorem C5_conflict_reported_not_retried (st : PageState)
    (db : List AttendanceRecordRow) (today uid : String)
    (huid : st.userId = some uid)
    (hp : (st.selectedPeriod == 8 && st.period8Free) = false)
    (hconf : hasConflict db
        (buildRecords today st.selectedPeriod uid st.attendance) = true) :
    (saveAttendance st db today).db = db
    ∧ (saveAttendance st db today).state.attendance = st.attendance
    ∧ (saveAttendance st db today).insertCalls
        = [buildRecords today st.selectedPeriod uid st.attendance]
    ∧ (saveAttendance st db today).toasts
        = [Toast.error "Attendance already recorded for this period today"] := by
  have hmsg : containsSubstr "duplicate"
      "duplicate key value violates unique constraint" = true := by decide
  simp [saveAttendance, huid, hp, sinkInsert, hconf, hmsg]

/-- Witness for C5: a sink that already holds (A, 2024-05-01, period 3)
rejects the second commit; nothing is overwritten or retried. -/
theorem C5_conflict_reported_not_retried_witness :
    (saveAttendance ⟨3, false, [⟨"A", "Alice", "1", Status.absent⟩], false, false,
        some "u"⟩ [⟨"A", "2024-05-01", 3, Status.present, "u0"⟩] "2024-05-01").db
      = [⟨"A", "2024-05-01", 3, Status.present, "u0"⟩]
    ∧ (saveAttendance ⟨3, false, [⟨"A", "Alice", "1", Status.absent⟩], false, false,
        some "u"⟩ [⟨"A", "2024-05-01", 3, Status.present, "u0"⟩] "2024-05-01").state.attendance
      = [⟨"A", "Alice", "1", Status.absent⟩]
    ∧ (saveAttendance ⟨3, false, [⟨"A", "Alice", "1", Status.absent⟩], false, false,
        some "u"⟩ [⟨"A", "2024-05-01", 3, Status.present, "u0"⟩] "2024-05-01").insertCalls
      = [buildRecords "2024-05-01" 3 "u" [⟨"A", "Alice", "1", Status.absent⟩]]
    ∧ (saveAttendance ⟨3, false, [⟨"A", "Alice", "1", Status.absent⟩], false, false,
        some "u"⟩ [⟨"A", "2024-05-01", 3, Status.present, "u0"⟩] "2024-05-01").toasts
      = [Toast.error "Attendance already recorded for this period today"] :=
  C5_conflict_reported_not_retried
    ⟨3, false, [⟨"A", "Alice", "1", Status.absent⟩], false, false, some "u"⟩
    [⟨"A", "2024-05-01", 3, Status.present, "u0"⟩] "2024-05-01" "u"
    rfl (by decide) (by decide)

/-- C10: with period 8 selected and the period-8-free switch on, the save
operation issues no insert, leaves the stored records and the in-memory
attendance entries unchanged, and only toggles the transient saving flag
(back to false). -/
theorem C10_period8_free_no_insert (st : PageState) (db : List AttendanceRecordRow)
    (today uid : String) (huid : st.userId = some uid)
    (h8 : st.selectedPeriod = 8) (hfree : st.period8Free = true) :
    saveAttendance st db today =
      { state := { st with saving := false }, db := db, insertCalls := [],
        toasts := [Toast.info "Period 8 is marked as free. No attendance recorded."] } := by
  simp [saveAttendance, huid, h8, hfree]

/-- Witness for C10 at a concrete state with period 8 marked free. -/
theorem C10_period8_free_no_insert_witness :
    saveAttendance ⟨8, true, [⟨"A", "Alice", "1", Status.present⟩], false, false,
        some "u"⟩ [] "2024-05-01"
      = { state := ⟨8, true, [⟨"A", "Alice", "1", Status.present⟩], false, false,
            some "u"⟩, db := [], insertCalls := [],
          toasts := [Toast.info "Period 8 is marked as free. No attendance recorded."] } :=
  C10_period8_free_no_insert
    ⟨8, true, [⟨"A", "Alice", "1", Status.present⟩], false, false, some "u"⟩
    [] "2024-05-01" "u" rfl rfl rfl

/-- C4 counterexample: after a first commit succeeds for a session, invoking
the commit operation again still attempts an insert into the sink — the core
tracks no finalized-session flag — contradicting the claim that no second
write is ever attempted for an already-committed session. -/
theorem C4_counterexample :
    (saveAttendance ⟨3, false, [⟨"A", "Alice", "1", Status.absent⟩], false, false,
        some "u"⟩ [] "2024-05-01").toasts
      = [Toast.success "Attendance saved for Period 3!"]
    ∧ (saveAttendance
        (saveAttendance ⟨3, false, [⟨"A", "Alice", "1", Status.absent⟩], false, false,
            some "u"⟩ [] "2024-05-01").state
        (saveAttendance ⟨3, false, [⟨"A", "Alice", "1", Status.absent⟩], false, false,
            some "u"⟩ [] "2024-05-01").db
        "2024-05-01").insertCalls ≠ [] :=
  ⟨by decide, by decide⟩

/-- C4 (amended): invoking the commit operation a second time on an
already-committed session recomputes a byte-identical roll and attempts a
second insert of that same batch; the sink rejects it as a duplicate, the
stored records are unchanged, and the rejection is reported. -/
theorem C4_second_commit_identical_and_rejected (st : PageState)
    (db : List AttendanceRecordRow) (today uid : String)
    (huid : st.userId = some uid)
    (hp : (st.selectedPeriod == 8 && st.period8Free) = false)
    (hatt : st.attendance ≠ [])
    (hfresh : hasConflict db
        (buildRecords today st.selectedPeriod uid st.attendance) = false) :
    (saveAttendance st db today).insertCalls
        = [buildRecords today st.selectedPeriod uid st.attendance]
    ∧ (saveAttendance (saveAttendance st db today).state
          (saveAttendance st db today).db today).insertCalls
        = (saveAttendance st db today).insertCalls
    ∧ (saveAttendance (saveAttendance st db today).state
          (saveAttendance st db today).db today).db
        = (saveAttendance st db today).db
    ∧ (saveAttendance (saveAttendance st db today).state
          (saveAttendance st db today).db today).toasts
        = [Toast.error "Attendance already recorded for this period today"] := by
  have hmsg : containsSubstr "duplicate"
      "duplicate key value violates unique constraint" = true := by decide
  have hrecne : buildRecords today st.selectedPeriod uid st.attendance ≠ [] := by
    simp only [buildRecords, ne_eq, List.map_eq_nil_iff]
    exact hatt
  obtain ⟨r, rs, hrec⟩ := List.exists_cons_of_ne_nil hrecne
  have hconf2 : hasConflict
      (db ++ buildRecords today st.selectedPeriod uid st.attendance)
      (buildRecords today st.selectedPeriod uid st.attendance) = true := by
    apply List.any_eq_true.mpr
    refine ⟨r, by rw [hrec]; exact List.mem_cons_self r rs, ?_⟩
    apply List.any_eq_true.mpr
    refine ⟨r, List.mem_append_right db (by rw [hrec]; exact List.mem_cons_self r rs), ?_⟩
    simp
  have h1 : saveAttendance st db today =
      ⟨{ st with saving := false },
        db ++ buildRecords today st.selectedPeriod uid st.attendance,
        [buildRecords today st.selectedPeriod uid st.attendance],
        [Toast.success ("Attendance saved for Period "
          ++ toString st.selectedPeriod ++ "!")]⟩ := by
    simp [saveAttendance, huid, hp, sinkInsert, hfresh]
  have h2 : saveAttendance { st with saving := false }
      (db ++ buildRecords today st.selectedPeriod uid st.attendance) today =
      ⟨{ st with saving := false },
        db ++ buildRecords today st.selectedPeriod uid st.attendance,
        [buildRecords today st.selectedPeriod uid st.attendance],
        [Toast.error "Attendance already recorded for this period today"]⟩ := by
    simp [saveAttendance, huid, hp, sinkInsert, hconf2, hmsg]
  rw [h1]
  exact ⟨rfl, by rw [h2], by rw [h2], by rw [h2]⟩

/-- Witness for the amended C4 at a concrete one-student session saved twice. -/
theorem C4_second_commit_identical_and_rejected_witness :
    (saveAttendance ⟨3, false, [⟨"A", "Alice", "1", Status.absent⟩], false, false,
        some "u"⟩ [] "2024-05-01").insertCalls
      = [buildRecords "2024-05-01" 3 "u" [⟨"A", "Alice", "1", Status.absent⟩]]
    ∧ (saveAttendance
          (saveAttendance ⟨3, false, [⟨"A", "Alice", "1", Status.absent⟩], false, false,
              some "u"⟩ [] "2024-05-01").state
          (saveAttendance ⟨3, false, [⟨"A", "Alice", "1", Status.absent⟩], false, false,
              some "u"⟩ [] "2024-05-01").db "2024-05-01").insertCalls
      = (saveAttendance ⟨3, false, [⟨"A", "Alice", "1", Status.absent⟩], false, false,
            some "u"⟩ [] "2024-05-01").insertCalls
    ∧ (saveAttendance
          (saveAttendance ⟨3, false, [⟨"A", "Alice", "1", Status.absent⟩], false, false,
              some "u"⟩ [] "2024-05-01").state
          (saveAttendance ⟨3, false, [⟨"A", "Alice", "1", Status.absent⟩], false, false,
              some "u"⟩ [] "2024-05-01").db "2024-05-01").db
      = (saveAttendance ⟨3, false, [⟨"A", "Alice", "1", Status.absent⟩], false, false,
            some "u"⟩ [] "2024-05-01").db
    ∧ (saveAttendance
          (saveAttendance ⟨3, false, [⟨"A", "Alice", "1", Status.absent⟩], false, false,
              some "u"⟩ [] "2024-05-01").state
          (saveAttendance ⟨3, false, [⟨"A", "Alice", "1", Status.absent⟩], false, false,
              some "u"⟩ [] "2024-05-01").db "2024-05-01").toasts
      = [Toast.error "Attendance already recorded for this period today"] :=
  C4_second_commit_identical_and_rejected
    ⟨3, false, [⟨"A", "Alice", "1", Status.absent⟩], false, false, some "u"⟩
    [] "2024-05-01" "u" rfl (by decide) (by decide) (by decide)

/-- C7: a recognition-model load failure is reported exactly once at startup
(the mount-once effect) and never again per frame, and in the resulting
degraded manual mode the save operation behaves identically to the
model-loaded case (same inserts, same stored records, same toasts, same
attendance), so manual status updates and saving still work. -/
theorem C7_model_failure_once_degraded_mode (n : Nat) (st : PageState)
    (db : List AttendanceRecordRow) (today : String) :
    (sessionModelReports false n).length = 1
    ∧ sessionModelReports false n = sessionModelReports false 0
    ∧ (saveAttendance { st with faceApiLoaded := false } db today).insertCalls
        = (saveAttendance { st with faceApiLoaded := true } db today).insertCalls
    ∧ (saveAttendance { st with faceApiLoaded := false } db today).db
        = (saveAttendance { st with faceApiLoaded := true } db today).db
    ∧ (saveAttendance { st with faceApiLoaded := false } db today).toasts
        = (saveAttendance { st with faceApiLoaded := true } db today).toasts
    ∧ (saveAttendance { st with faceApiLoaded := false } db today).state.attendance
        = (saveAttendance { st with faceApiLoaded := true } db today).state.attendance := by
  obtain ⟨p8, f8, att, sv, fl, uidO⟩ := st
  refine ⟨rfl, rfl, ?_⟩
  cases uidO with
  | none => exact ⟨rfl, rfl, rfl, rfl⟩
  | some uid =>
    by_cases hc : (p8 == 8 && f8) = true
    · simp [saveAttendance, hc]
    · rcases hsi : sinkInsert db (buildRecords today p8 uid att) with ⟨db2, res⟩
      cases res with
      | success => simp [saveAttendance, hc, hsi]
      | error msg =>
          by_cases hdup : containsSubstr "duplicate" msg = true
          · simp [saveAttendance, hc, hsi, hdup]
          · simp [saveAttendance, hc, hsi, hdup]

/-- C9 counterexample: a committed record carries the fields student_id,
date, period, status and verified_by, but no roll_number field — the claim's
required roll_number is absent from the rows built by the save operation. -/
theorem C9_counterexample :
    buildRecords "2024-05-01" 1 "u" [⟨"A", "Alice", "1", Status.absent⟩]
        = [⟨"A", "2024-05-01", 1, Status.absent, "u"⟩]
    ∧ "roll_number" ∉
        (rowFields ⟨"A", "2024-05-01", 1, Status.absent, "u"⟩).map Prod.fst :=
  ⟨rfl, by decide⟩

/-- C9 (amended): every record of one commit carries exactly the fields
student_id, date, period, status and verified_by (in stable order, without
roll_number), with the same date and the same period (an integer the period
selector confines to 1..8) across all records of the commit, and a status
drawn from present/sleepy/absent. -/
theorem C9_record_shape (today : String) (p : Nat) (uid : String)
    (att : List AttendanceEntry) (f : Bool) (hp : p ∈ periodOptions f) :
    ∀ r ∈ buildRecords today p uid att,
      (rowFields r).map Prod.fst
          = ["student_id", "date", "period", "status", "verified_by"]
        ∧ r.date = today ∧ r.period = p ∧ 1 ≤ r.period ∧ r.period ≤ 8
        ∧ statusText r.status ∈ ["present", "sleepy", "absent"] := by
  have hmax : maxPeriods f ≤ 8 := by cases f <;> decide
  simp only [periodOptions, List.mem_map, List.mem_range] at hp
  obtain ⟨i, hi, rfl⟩ := hp
  have h1 : 1 ≤ i + 1 := Nat.succ_le_succ (Nat.zero_le i)
  have h8 : i + 1 ≤ 8 := by omega
  intro r hr
  obtain ⟨a, _, rfl⟩ := mem_buildRecords today (i + 1) uid att hr
  refine ⟨rfl, rfl, rfl, h1, h8, ?_⟩
  cases a.status <;> simp [statusText]

/-- Witness for the amended C9 at a concrete one-record commit in period 1. -/
theorem C9_record_shape_witness :
    1 ∈ periodOptions false
    ∧ ((rowFields ⟨"A", "2024-05-01", 1, Status.present, "u"⟩).map Prod.fst
          = ["student_id", "date", "period", "status", "verified_by"]
        ∧ (⟨"A", "2024-05-01", 1, Status.present, "u"⟩ : AttendanceRecordRow).date
            = "2024-05-01"
        ∧ (⟨"A", "2024-05-01", 1, Status.present, "u"⟩ : AttendanceRecordRow).period = 1
        ∧ 1 ≤ (⟨"A", "2024-05-01", 1, Status.present, "u"⟩ : AttendanceRecordRow).period
        ∧ (⟨"A", "2024-05-01", 1, Status.present, "u"⟩ : AttendanceRecordRow).period ≤ 8
        ∧ statusText (⟨"A", "2024-05-01", 1, Status.present, "u"⟩
            : AttendanceRecordRow).status ∈ ["present", "sleepy", "absent"]) :=
  ⟨by decide,
   C9_record_shape "2024-05-01" 1 "u" [⟨"A", "Alice", "1", Status.present⟩] false
     (by decide) ⟨"A", "2024-05-01", 1, Status.present, "u"⟩ (by decide)⟩

/-! ## Matcher lemmas -/

lemma galleryMinDist_cons (q : String × WithTop ℤ) (rest : List (String × WithTop ℤ)) :
    galleryMinDist (q :: rest) = min q.2 (galleryMinDist rest) := rfl

lemma galleryMinDist_le (scored : List (String × WithTop ℤ)) :
    ∀ p ∈ scored, galleryMinDist scored ≤ p.2 := by
  induction scored with
  | nil => intro p hp; cases hp
  | cons q rest ih =>
      intro p hp
      rcases List.mem_cons.mp hp with rfl | hp
      · exact min_le_left _ _
      · exact le_trans (min_le_right _ _) (ih p hp)

lemma galleryMinDist_attained (scored : List (String × WithTop ℤ)) :
    galleryMinDist scored = ⊤ ∨ ∃ p ∈ scored, p.2 = galleryMinDist scored := by
  induction scored with
  | nil => exact Or.inl rfl
  | cons q rest ih =>
      rcases min_cases q.2 (galleryMinDist rest) with ⟨hmin, _⟩ | ⟨hmin, _⟩
      · exact Or.inr ⟨q, List.mem_cons_self q rest,
          by rw [galleryMinDist_cons, hmin]⟩
      · rcases ih with htop | ⟨p, hp, hpe⟩
        · exact Or.inl (by rw [galleryMinDist_cons, hmin, htop])
        · exact Or.inr ⟨p, List.mem_cons_of_mem q hp,
            by rw [galleryMinDist_cons, hmin, hpe]⟩

lemma scoredOf_fst (d : List ℤ) (gallery : List GalleryEntry) :
    (scoredOf d gallery).map Prod.fst = gallery.map GalleryEntry.identityId := by
  simp [scoredOf, List.map_map]

lemma mem_scoredOf {d : List ℤ} {gallery : List GalleryEntry}
    {q : String × WithTop ℤ} (hq : q ∈ scoredOf d gallery) :
    ∃ g ∈ gallery, q = (g.identityId, identityDist d g) := by
  simp only [scoredOf, List.mem_map] at hq
  obtain ⟨g, hg, rfl⟩ := hq
  exact ⟨g, hg, rfl⟩

lemma filter_eq_singleton {α : Type} (l : List α) (p : α → Bool) (a : α)
    (hnodup : l.Nodup) (ha : a ∈ l)
    (hiff : ∀ b ∈ l, (p b = true ↔ b = a)) : l.filter p = [a] := by
  induction l with
  | nil => cases ha
  | cons x xs ih =>
      have hnx := List.nodup_cons.mp hnodup
      rcases List.mem_cons.mp ha with rfl | hmem
      · rw [List.filter_cons_of_pos ((hiff a (List.mem_cons_self a xs)).mpr rfl)]
        have hnil : xs.filter p = [] := by
          apply List.filter_eq_nil_iff.mpr
          intro b hb hpb
          exact hnx.1 (((hiff b (List.mem_cons_of_mem a hb)).mp hpb) ▸ hb)
        rw [hnil]
      · have hxa : x ≠ a := fun h => hnx.1 (h ▸ hmem)
        rw [List.filter_cons_of_neg (by
          intro hpx
          exact hxa ((hiff x (List.mem_cons_self x xs)).mp hpx))]
        exact ih hnx.2 hmem (fun b hb => hiff b (List.mem_cons_of_mem x hb))

lemma matchScored_of_filter_singleton (threshold eps : ℤ)
    (scored : List (String × WithTop ℤ)) (q : String × WithTop ℤ)
    (hbranch : galleryMinDist scored ≤ (threshold : WithTop ℤ))
    (hfil : scored.filter
        (fun q2 => decide (q2.2 ≤ galleryMinDist scored + (eps : WithTop ℤ)))
        = [q]) :
    matchScored threshold eps scored = some q.1 := by
  simp only [matchScored]
  rw [if_pos hbranch, hfil]

lemma matchScored_none_of_min_gt (threshold eps : ℤ)
    (scored : List (String × WithTop ℤ))
    (hbranch : ¬(galleryMinDist scored ≤ (threshold : WithTop ℤ))) :
    matchScored threshold eps scored = none := by
  simp only [matchScored]
  rw [if_neg hbranch]

/-- C8 counterexample: a descriptor within the match threshold of exactly one
identity (A at squared distance 0 ≤ 8, B at 16 > 8) for which the matcher
nevertheless returns unknown, because B lies within the tie epsilon (20) of
the minimum distance — the first conjunct of the claim does not hold
unconditionally. -/
theorem C8_counterexample :
    identityDist [0] ⟨"A", [[0]]⟩ ≤ ((8 : ℤ) : WithTop ℤ)
    ∧ ¬(identityDist [0] ⟨"B", [[4]]⟩ ≤ ((8 : ℤ) : WithTop ℤ))
    ∧ matchDescriptor 8 20 [⟨"A", [[0]]⟩, ⟨"B", [[4]]⟩] [0] ≠ some "A"
    ∧ matchDescriptor 8 20 [⟨"A", [[0]]⟩, ⟨"B", [[4]]⟩] [0] = none :=
  ⟨by decide, by decide, by decide, by decide⟩

/-- C8 (amended): with a nonnegative tie epsilon and pairwise-distinct
gallery identities, (i) a descriptor within the match threshold of exactly
one identity — every other identity lying beyond the threshold and beyond
epsilon of that identity's distance — matches that identity; (ii) two
distinct identities both within epsilon of the minimum distance yield
unknown; (iii) a descriptor beyond the threshold of every identity yields
unknown. (Spec-modelled: the matcher code of the facial-recognition tool is
absent from the snapshot.) -/
theorem C8_matcher (threshold eps : ℤ) (gallery : List GalleryEntry)
    (d : List ℤ) (heps : 0 ≤ eps)
    (hnodup : (gallery.map GalleryEntry.identityId).Nodup) :
    (∀ g0 ∈ gallery, identityDist d g0 ≤ (threshold : WithTop ℤ) →
      (∀ g ∈ gallery, g.identityId ≠ g0.identityId →
        ¬(identityDist d g ≤ (threshold : WithTop ℤ))
        ∧ ¬(identityDist d g ≤ identityDist d g0 + (eps : WithTop ℤ))) →
      matchDescriptor threshold eps gallery d = some g0.identityId)
    ∧ (∀ g1 ∈ gallery, ∀ g2 ∈ gallery, g1.identityId ≠ g2.identityId →
        identityDist d g1 ≤ galleryMinDist (scoredOf d gallery) + (eps : WithTop ℤ) →
        identityDist d g2 ≤ galleryMinDist (scoredOf d gallery) + (eps : WithTop ℤ) →
        matchDescriptor threshold eps gallery d = none)
    ∧ ((∀ g ∈ gallery, ¬(identityDist d g ≤ (threshold : WithTop ℤ))) →
        matchDescriptor threshold eps gallery d = none) := by
  have hinj : ∀ x ∈ gallery, ∀ y ∈ gallery,
      x.identityId = y.identityId → x = y :=
    List.inj_on_of_nodup_map hnodup
  have heps' : (0 : WithTop ℤ) ≤ ((eps : ℤ) : WithTop ℤ) := by
    exact_mod_cast heps
  refine ⟨?_, ?_, ?_⟩
  · -- (i) unique in-threshold identity, others beyond threshold and epsilon
    intro g0 hg0 hd0 hothers
    have hq0 : (g0.identityId, identityDist d g0) ∈ scoredOf d gallery :=
      List.mem_map_of_mem _ hg0
    have hle : galleryMinDist (scoredOf d gallery) ≤ identityDist d g0 :=
      galleryMinDist_le _ _ hq0
    have hdmin : galleryMinDist (scoredOf d gallery) = identityDist d g0 := by
      rcases galleryMinDist_attained (scoredOf d gallery) with htop | ⟨p, hp, hpe⟩
      · rw [htop] at hle
        rw [top_le_iff.mp hle] at hd0
        exact absurd hd0 (WithTop.not_top_le_coe threshold)
      · obtain ⟨g, hg, rfl⟩ := mem_scoredOf hp
        by_cases hid : g.identityId = g0.identityId
        · rw [hinj g hg g0 hg0 hid] at hpe
          exact hpe.symm
        · exfalso
          apply (hothers g hg hid).1
          calc identityDist d g = galleryMinDist (scoredOf d gallery) := hpe
            _ ≤ identityDist d g0 := hle
            _ ≤ (threshold : WithTop ℤ) := hd0
    have hbranch : galleryMinDist (scoredOf d gallery) ≤ (threshold : WithTop ℤ) :=
      hdmin ▸ hd0
    have hsnodup : (scoredOf d gallery).Nodup := by
      have hfst : ((scoredOf d gallery).map Prod.fst).Nodup := by
        rw [scoredOf_fst]; exact hnodup
      exact hfst.of_map
    have hfil : (scoredOf d gallery).filter
        (fun q2 => decide (q2.2 ≤ galleryMinDist (scoredOf d gallery)
          + (eps : WithTop ℤ)))
        = [(g0.identityId, identityDist d g0)] := by
      apply filter_eq_singleton _ _ _ hsnodup hq0
      intro b hb
      obtain ⟨g, hg, rfl⟩ := mem_scoredOf hb
      by_cases hid : g.identityId = g0.identityId
      · rw [hinj g hg g0 hg0 hid]
        simp only [decide_eq_true_eq]
        have hle0 : identityDist d g0
            ≤ galleryMinDist (scoredOf d gallery) + ((eps : ℤ) : WithTop ℤ) := by
          rw [hdmin]
          exact le_add_of_nonneg_right heps'
        simp [hle0]
      · have hnot := (hothers g hg hid).2
        simp only [decide_eq_true_eq, Prod.mk.injEq]
        constructor
        · intro hle2
          rw [hdmin] at hle2
          exact absurd hle2 hnot
        · intro hpair
          exact absurd hpair.1 hid
    show matchScored threshold eps (scoredOf d gallery) = some g0.identityId
    exact matchScored_of_filter_singleton threshold eps _ _ hbranch hfil
  · -- (ii) two distinct identities within epsilon of the minimum
    intro g1 hg1 g2 hg2 hne h1 h2
    by_cases hbranch : galleryMinDist (scoredOf d gallery) ≤ (threshold : WithTop ℤ)
    · have hq1 : (g1.identityId, identityDist d g1) ∈ (scoredOf d gallery).filter
          (fun q2 => decide (q2.2 ≤ galleryMinDist (scoredOf d gallery)
            + (eps : WithTop ℤ))) :=
        List.mem_filter.mpr ⟨List.mem_map_of_mem _ hg1, decide_eq_true h1⟩
      have hq2 : (g2.identityId, identityDist d g2) ∈ (scoredOf d gallery).filter
          (fun q2 => decide (q2.2 ≤ galleryMinDist (scoredOf d gallery)
            + (eps : WithTop ℤ))) :=
        List.mem_filter.mpr ⟨List.mem_map_of_mem _ hg2, decide_eq_true h2⟩
      show matchScored threshold eps (scoredOf d gallery) = none
      simp only [matchScored]
      rw [if_pos hbranch]
      rcases hfl : (scoredOf d gallery).filter
          (fun q2 => decide (q2.2 ≤ galleryMinDist (scoredOf d gallery)
            + (eps : WithTop ℤ))) with _ | ⟨x, _ | ⟨y, rest⟩⟩
      · rw [hfl] at hq1; cases hq1
      · exfalso
        rw [hfl] at hq1 hq2
        have e1 := List.mem_singleton.mp hq1
        have e2 := List.mem_singleton.mp hq2
        exact hne (congrArg Prod.fst (e1.trans e2.symm))
      · rw [hfl]
    · exact matchScored_none_of_min_gt threshold eps _ hbranch
  · -- (iii) every identity beyond the threshold
    intro hall
    apply matchScored_none_of_min_gt
    intro hle
    rcases galleryMinDist_attained (scoredOf d gallery) with htop | ⟨p, hp, hpe⟩
    · rw [htop] at hle
      exact WithTop.not_top_le_coe threshold hle
    · obtain ⟨g, hg, rfl⟩ := mem_scoredOf hp
      have hpe' : identityDist d g = galleryMinDist (scoredOf d gallery) := hpe
      exact hall g hg (by rw [hpe']; exact hle)

/-- Witness for the amended C8: descriptor at squared distance 0 from A and
16 from B, threshold 8, epsilon 1 — the matcher returns A. -/
theorem C8_matcher_witness :
    matchDescriptor 8 1 [⟨"A", [[0]]⟩, ⟨"B", [[4]]⟩] [0] = some "A" :=
  (C8_matcher 8 1 [⟨"A", [[0]]⟩, ⟨"B", [[4]]⟩] [0] (by decide) (by decide)).1
    ⟨"A", [[0]]⟩ (by decide) (by decide) (by decide)
